import Mathlib

/-!
Shallow embedding of the gila terminal text editor (Go sources under
`editor/line.go`, the final `Cursor` variant, `intutil/intutil.go`, and the
`bufio.ScanLines` splitter used by `Editor.open`).

Conventions of the embedding:
* Go byte values and Go runes (code points) are both modelled as `Nat`;
  a text line is a `List Nat` of runes, matching the `[]rune` field of `Line`.
* `keynum` sentinel values are the exact constants of the source
  (`iota + 1e6`).
* Go `int` cursor coordinates are modelled as `Int`.
* A function that can hit a Go runtime panic (index/slice out of range)
  returns an `Option`, with `none` standing for the panic; total Go
  functions are total Lean functions.
-/

namespace Gila

/-- Sentinel key values, the `keynum` constants of `editor/line.go`:
function keys start at 1e6, beyond the Unicode range (`iota + 1e6`). -/
def keyBackspace : Nat := 1000000

def keyLineFeed : Nat := 1000001

def keyDel : Nat := 1000002

def keyDown : Nat := 1000003

def keyEnd : Nat := 1000004

def keyEsc : Nat := 1000005

def keyHome : Nat := 1000006

def keyLeft : Nat := 1000007

def keyPageUp : Nat := 1000008

def keyPageDown : Nat := 1000009

def keyRight : Nat := 1000010

def keyUp : Nat := 1000011

/-- Chord `'h' & 0x1f`. -/
def chordBackspace : Nat := 8

/-- Chord `'l' & 0x1f`. -/
def chordRefresh : Nat := 12

/-- Chord `'s' & 0x1f`. -/
def chordSave : Nat := 19

/-- Chord `'q' & 0x1f`. -/
def chordQuit : Nat := 17

/-- Go `utf8.RuneError` (the Unicode replacement character). -/
def runeError : Nat := 0xFFFD

/-- Go `tabStop` constant from `editor/line.go`. -/
def tabStop : Nat := 4

/-- Lower bound of the accepted second byte for a given UTF-8 leading byte,
from the `acceptRanges` table of Go `unicode/utf8`. -/
def acceptLo (b0 : Nat) : Nat :=
  if b0 = 0xE0 then 0xA0 else if b0 = 0xF0 then 0x90 else 0x80

/-- Upper bound of the accepted second byte for a given UTF-8 leading byte,
from the `acceptRanges` table of Go `unicode/utf8`. -/
def acceptHi (b0 : Nat) : Nat :=
  if b0 = 0xED then 0x9F else if b0 = 0xF4 then 0x8F else 0xBF

/-- Model of Go `utf8.DecodeRune`, restricted to the decoded code point
(the size component is unused by `transliterateKeypress`): the first rune
of the byte list, or `runeError` on empty, truncated or invalid input. -/
def decodeRuneGo : List Nat → Nat
  | [] => runeError
  | b0 :: rest =>
    if b0 < 0x80 then b0
    else if b0 < 0xC2 then runeError
    else if b0 ≤ 0xDF then
      match rest with
      | b1 :: _ =>
        if 0x80 ≤ b1 ∧ b1 ≤ 0xBF then (b0 - 0xC0) * 0x40 + (b1 - 0x80) else runeError
      | [] => runeError
    else if b0 ≤ 0xEF then
      match rest with
      | b1 :: b2 :: _ =>
        if acceptLo b0 ≤ b1 ∧ b1 ≤ acceptHi b0 ∧ 0x80 ≤ b2 ∧ b2 ≤ 0xBF then
          (b0 - 0xE0) * 0x1000 + (b1 - 0x80) * 0x40 + (b2 - 0x80)
        else runeError
      | _ => runeError
    else if b0 ≤ 0xF4 then
      match rest with
      | b1 :: b2 :: b3 :: _ =>
        if acceptLo b0 ≤ b1 ∧ b1 ≤ acceptHi b0 ∧ 0x80 ≤ b2 ∧ b2 ≤ 0xBF ∧
            0x80 ≤ b3 ∧ b3 ≤ 0xBF then
          (b0 - 0xF0) * 0x40000 + (b1 - 0x80) * 0x1000 + (b2 - 0x80) * 0x40 + (b3 - 0x80)
        else runeError
      | _ => runeError
    else runeError

/-- Predicate `isEscapeSequence` of `editor/line.go`: at least two bytes and
the second byte is one of `0x5B` or `0x4F`. The first byte is not inspected. -/
def isEscapeSequence (kp : List Nat) : Bool :=
  if kp.length ≤ 1 then false
  else if kp.getD 1 0 = 0x5B ∨ kp.getD 1 0 = 0x4F then true
  else false

/-- The bottom section of `transliterateKeypress`, reached when the input is
not a recognized escape sequence: the switch on `kp[0]` over the
single-byte controls, followed by `utf8.DecodeRune`. -/
def transliterateTail (kp : List Nat) : Nat :=
  let b0 := kp.getD 0 0
  if b0 = chordBackspace ∨ b0 = 127 then keyBackspace
  else if b0 = 0x04 then keyDel
  else if b0 = 0x1B then keyEsc
  else if b0 = 0x0D then keyLineFeed
  else decodeRuneGo kp

/-- Function `transliterateKeypress` of `editor/line.go`. The result is
`none` exactly when Go panics with an index out of range: in the
`kp[1] == 'O'` branch the code reads `kp[2]` without checking the length. -/
def transliterateKeypress (kp : List Nat) : Option Nat :=
  if kp.length = 0 then some 0
  else if isEscapeSequence kp then
    if kp.getD 1 0 = 0x5B then
      if kp.length = 4 then
        if kp.getD 3 0 = 0x7E then
          if kp.getD 2 0 = 0x31 then some keyHome
          else if kp.getD 2 0 = 0x33 then some keyDel
          else if kp.getD 2 0 = 0x34 then some keyEnd
          else if kp.getD 2 0 = 0x35 then some keyPageUp
          else if kp.getD 2 0 = 0x36 then some keyPageDown
          else if kp.getD 2 0 = 0x37 then some keyHome
          else if kp.getD 2 0 = 0x38 then some keyEnd
          else some (transliterateTail kp)
        else some (transliterateTail kp)
      else if kp.length = 3 then
        if kp.getD 2 0 = 0x41 then some keyUp
        else if kp.getD 2 0 = 0x42 then some keyDown
        else if kp.getD 2 0 = 0x43 then some keyRight
        else if kp.getD 2 0 = 0x44 then some keyLeft
        else if kp.getD 2 0 = 0x48 then some keyHome
        else if kp.getD 2 0 = 0x46 then some keyEnd
        else some (transliterateTail kp)
      else some (transliterateTail kp)
    else
      if kp.length < 3 then none
      else if kp.getD 2 0 = 0x48 then some keyHome
      else if kp.getD 2 0 = 0x46 then some keyEnd
      else some (transliterateTail kp)
  else some (transliterateTail kp)

/-- Method `(*Line).insertRuneAt` of `editor/line.go`: an index below 0 or
above the length is clamped to the length (append). -/
def insertRuneAt (l : List Nat) (r : Nat) (i : Int) : List Nat :=
  let j : Int := if i < 0 ∨ i > (l.length : Int) then (l.length : Int) else i
  l.take j.toNat ++ r :: l.drop j.toNat

/-- Method `(*Line).deleteRuneAt` of `editor/line.go`: an index below 0 or
at/above the length is replaced by `RuneLen() - 1`. On an empty line that
replacement is `-1` and Go panics on the slice expression `l.runes[:-1]`;
the panic is modelled as `none`. -/
def deleteRuneAt (l : List Nat) (i : Int) : Option (List Nat) :=
  let j : Int := if i < 0 ∨ i ≥ (l.length : Int) then (l.length : Int) - 1 else i
  if j < 0 then none
  else some (l.take j.toNat ++ l.drop (j.toNat + 1))

/-- CLAIM C1. The key decoder is claimed total on every chunk of 0 to 8
bytes, in particular on every chunk whose first byte is ESC and whose
second byte is `[` or `O`, of any length from 2 to 8. The code violates
this: on the two-byte chunk ESC `O` (0x1B 0x4F), `isEscapeSequence` is
true, the `kp[1] == 'O'` branch reads `kp[2]`, and Go panics with an index
out of range; the model returns `none` instead of a key value. -/
theorem C1_transliterate_panics_on_two_byte_escO :
    transliterateKeypress [0x1B, 0x4F] = none := by decide

/-- CLAIM C5. `deleteRuneAt` is claimed to clamp every out-of-range index
and to be a panic-free no-op on an empty line. The clamping part holds for
non-empty lines, but on the empty line every index is mapped to `-1` and
the Go slice expression `l.runes[:-1]` panics (modelled as `none`): the
operation is not a no-op and does fail. -/
theorem C5_deleteRuneAt_panics_on_empty_line :
    ∀ i : Int, deleteRuneAt [] i = none := by
  intro i
  simp only [deleteRuneAt, List.length_nil]
  split_ifs with h1 h2 <;> simp_all

/-- Go `intutil.Max`. -/
def intutilMax (a b : Int) : Int := if a > b then a else b

/-- Go `intutil.Min`. -/
def intutilMin (a b : Int) : Int := if a < b then a else b

/-- Go `defaultCursorMargin` constant of the final cursor variant. -/
def defaultCursorMargin : Int := 3

/-- The `Cursor` struct of the final cursor variant: 1-indexed logical
coordinates plus 0-indexed viewport scroll offsets, all Go `int`. -/
structure Cursor where
  col : Int
  line : Int
  colOffset : Int
  lineOffset : Int
  deriving Repr, DecidableEq

/-- Method `(*Cursor).up`. -/
def Cursor.up (c : Cursor) : Cursor :=
  if c.line ≤ 1 then c else { c with line := c.line - 1 }

/-- Method `(*Cursor).down`. -/
def Cursor.down (c : Cursor) (nLines : Int) : Cursor :=
  if c.line > nLines then c else { c with line := c.line + 1 }

/-- Method `(*Cursor).home`. -/
def Cursor.home (c : Cursor) : Cursor := { c with col := 1 }

/-- Method `(*Cursor).end` (named `endCol` here because `end` is a Lean
keyword). -/
def Cursor.endCol (c : Cursor) (lineLen : Int) : Cursor := { c with col := lineLen + 1 }

/-- Method `(*Cursor).left`. -/
def Cursor.left (c : Cursor) (prevLineLen : Int) : Cursor :=
  if c.col > 1 then { c with col := c.col - 1 }
  else c.up.endCol prevLineLen

/-- Method `(*Cursor).right`. -/
def Cursor.right (c : Cursor) (lineLen nLines : Int) : Cursor :=
  if c.col ≤ lineLen then { c with col := c.col + 1 }
  else (c.down nLines).home

/-- Method `(*Cursor).snap`. -/
def Cursor.snap (c : Cursor) (lineLen : Int) : Cursor :=
  if c.col > lineLen + 1 then c.endCol lineLen else c

/-- Method `(*Cursor).pageUp`. -/
def Cursor.pageUp (c : Cursor) (height : Int) : Cursor :=
  { c with line := intutilMax 1 (c.lineOffset - height + 2) }

/-- Method `(*Cursor).pageDown`. -/
def Cursor.pageDown (c : Cursor) (height nLines : Int) : Cursor :=
  { c with line := intutilMin (nLines + 1) (c.lineOffset + height - 1 + height) }

/-- The vertical half of `(*Cursor).scroll`: the new line offset computed
from the cursor line, the previous line offset and the screen height (two
sequential conditional updates, the second reading the first's result). -/
def vOffset (line lo height : Int) : Int :=
  let z := line - 1
  let lo1 := if z < lo then z else lo
  if z ≥ lo1 + height then z - height + 1 else lo1

/-- The horizontal half of `(*Cursor).scroll`: the new column offset
computed from the cursor column, the previous column offset, the screen
width and `defaultCursorMargin`. -/
def hOffset (col co width : Int) : Int :=
  let z := col - 1
  let co1 :=
    if z < co + defaultCursorMargin then intutilMax 0 (z - defaultCursorMargin) else co
  if z ≥ co1 + width then z - width + 1 else co1

/-- Method `(*Cursor).scroll` of the final cursor variant: the vertical and
horizontal offset updates are independent of each other and leave `col` and
`line` unchanged. -/
def Cursor.scroll (c : Cursor) (width height : Int) : Cursor :=
  { c with
    lineOffset := vOffset c.line c.lineOffset height
    colOffset := hOffset c.col c.colOffset width }

/-- The vertical scroll-offset update is idempotent for all integer inputs. -/
theorem vOffset_idem (line lo height : Int) :
    vOffset line (vOffset line lo height) height = vOffset line lo height := by
  simp only [vOffset]
  split_ifs <;> omega

/-- The horizontal scroll-offset update is idempotent whenever the column is
at least 1 and the incoming column offset is nonnegative (both hold for
every state the editor produces). -/
theorem hOffset_idem (col co width : Int) (h1 : 1 ≤ col) (h2 : 0 ≤ co) :
    hOffset col (hOffset col co width) width = hOffset col co width := by
  simp only [hOffset, intutilMax, defaultCursorMargin]
  split_ifs <;> omega

/-- CLAIM C9, counterexample. As stated over every cursor state, scroll is
not idempotent: from `col = 1`, `colOffset = -3`, width 3, the first call
moves the column offset to `-2` and the second call to `0`. -/
theorem C9_scroll_not_idempotent_cex :
    (((Cursor.mk 1 1 (-3) 0).scroll 3 1).scroll 3 1).colOffset ≠
      ((Cursor.mk 1 1 (-3) 0).scroll 3 1).colOffset := by decide

/-- CLAIM C9, amended. `scroll(w,h)` is idempotent for every width, height
and cursor state satisfying `col ≥ 1` and `colOffset ≥ 0` (every state the
editor constructs satisfies both; the interior states with a negative
column offset are the only failures). -/
theorem C9_scroll_idempotent_amended (c : Cursor) (w h : Int)
    (h1 : 1 ≤ c.col) (h2 : 0 ≤ c.colOffset) :
    (c.scroll w h).scroll w h = c.scroll w h := by
  cases c with
  | mk col line co lo =>
    simp only [Cursor.scroll]
    rw [vOffset_idem, hOffset_idem col co w h1 h2]

/-- Witness for C9: the amended idempotence theorem applied at a concrete
cursor state, width and height. -/
theorem C9_scroll_witness :
    ((Cursor.mk 5 7 2 3).scroll 10 4).scroll 10 4 = (Cursor.mk 5 7 2 3).scroll 10 4 :=
  C9_scroll_idempotent_amended (Cursor.mk 5 7 2 3) 10 4 (by decide) (by decide)

/-- The editor state relevant to keypress processing: configuration, cursor,
text buffer, dirty flag, consecutive-quit counter and status message.
Fields tied to IO (key reader, renderer, file path, logger, timestamps) are
outside the model. -/
structure Editor where
  width : Int
  height : Int
  cursor : Cursor
  lines : List (List Nat)
  dirty : Bool
  quitCount : Int
  statusMsg : String
  deriving Repr, DecidableEq

/-- Method `(*Editor).len`: the number of buffer lines, as a Go `int`. -/
def Editor.len (e : Editor) : Int := e.lines.length

/-- Length a nil-able `*Line` reports via `RuneLen` (0 for nil). -/
def runeLen : Option (List Nat) → Int
  | none => 0
  | some l => l.length

/-- Method `(*Editor).currentLine`: nil once the cursor is past the last
line, otherwise `e.lines[e.cursor.line-1]`. Go would panic for a cursor
line below 1; every state considered keeps `line ≥ 1`, where `get?` agrees
with the Go indexing. -/
def Editor.currentLine (e : Editor) : Option (List Nat) :=
  if e.cursor.line > e.len then none
  else e.lines.get? (e.cursor.line - 1).toNat

/-- Method `(*Editor).prevLine`: a nil pointer (`some none`) at the first
line, otherwise the Go indexing `e.lines[e.cursor.line-2]` — `some (some p)`
for an in-range index, and `none` for the index-out-of-range panic Go hits
once the cursor line exceeds `len+1`. (In the indexing branch the cursor
line is at least 2, so the index is never negative.) -/
def Editor.prevLine (e : Editor) : Option (Option (List Nat)) :=
  if e.cursor.line ≤ 1 then some none
  else if e.cursor.line - 2 < (e.lines.length : Int) then
    some (e.lines.get? (e.cursor.line - 2).toNat)
  else none

/-- Method `(*Editor).insertRune`: a nil current line (cursor on the
virtual trailing line) first appends a fresh empty line at the end of the
buffer, and the rune is inserted into that line; the column advances and
the document is marked dirty. -/
def Editor.insertRune (e : Editor) (r : Nat) : Editor :=
  match e.currentLine with
  | some l =>
    { e with
      lines := e.lines.set (e.cursor.line - 1).toNat (insertRuneAt l r (e.cursor.col - 1))
      cursor := { e.cursor with col := e.cursor.col + 1 }
      dirty := true }
  | none =>
    { e with
      lines := e.lines ++ [insertRuneAt [] r (e.cursor.col - 1)]
      cursor := { e.cursor with col := e.cursor.col + 1 }
      dirty := true }

/-- Method `(*Editor).mergeCurrentLineWithPrevious`: the method first
evaluates both `e.currentLine()` and `e.prevLine()`, so a panic inside
`prevLine` (cursor line past `len+1`) propagates as `none`; with both
pointers obtained, it is a no-op when either is nil; otherwise the
previous line absorbs the current line's runes, the current line is
removed, the cursor moves up one line and its column becomes the previous
line's old length. The dirty flag is not touched. -/
def Editor.mergeCurrentLineWithPrevious (e : Editor) : Option Editor :=
  match e.prevLine with
  | none => none
  | some pl =>
    match e.currentLine, pl with
    | some l, some p =>
      let lines1 := e.lines.set (e.cursor.line - 2).toNat (p ++ l)
      let lines2 := lines1.take (e.cursor.line - 1).toNat ++ lines1.drop (e.cursor.line).toNat
      some
        { e with
          lines := lines2
          cursor := { e.cursor with line := e.cursor.line - 1, col := (p.length : Int) } }
    | _, _ => some e

/-- Method `(*Editor).backspace`: no-op on a nil current line; at column 1
it merges into the previous line; otherwise it deletes the rune left of
the cursor, moves left and marks the document dirty. The `none` result
propagates `deleteRuneAt`'s panic (only possible in states that violate
the column invariant). -/
def Editor.backspace (e : Editor) : Option Editor :=
  match e.currentLine with
  | none => some e
  | some l =>
    if e.cursor.col = 1 then e.mergeCurrentLineWithPrevious
    else
      (deleteRuneAt l (e.cursor.col - 2)).map fun l2 =>
        { e with
          lines := e.lines.set (e.cursor.line - 1).toNat l2
          cursor := { e.cursor with col := e.cursor.col - 1 }
          dirty := true }

/-- Method `(*Editor).mergeNextLineWithCurrent`: a no-op only when the
cursor line equals the number of buffer lines; otherwise it increments the
cursor line and merges with the previous line (whose panic, when the
incremented line is past `len+1`, propagates). -/
def Editor.mergeNextLineWithCurrent (e : Editor) : Option Editor :=
  if e.cursor.line = e.len then some e
  else
    Editor.mergeCurrentLineWithPrevious
      { e with cursor := { e.cursor with line := e.cursor.line + 1 } }

/-- Method `(*Editor).delete`: at the end of the current line it merges the
next line in; otherwise it runs column+1, backspace, column-1 (the
trailing decrement runs after backspace has already moved the column back,
so a mid-line delete also moves the cursor left). -/
def Editor.delete (e : Editor) : Option Editor :=
  if e.cursor.col = runeLen e.currentLine + 1 then e.mergeNextLineWithCurrent
  else
    (Editor.backspace { e with cursor := { e.cursor with col := e.cursor.col + 1 } }).map
      fun e2 => { e2 with cursor := { e2.cursor with col := e2.cursor.col - 1 } }

/-- Method `(*Editor).newLine` (Enter): no-op past the last line; otherwise
the current line keeps the runes before the cursor, a new line holding the
remaining runes is inserted immediately after, and the cursor moves to
column 1 of the new line. The dirty flag is not touched. -/
def Editor.newLine (e : Editor) : Editor :=
  if e.cursor.line > e.len then e
  else
    match e.currentLine with
    | none => e
    | some cl =>
      let lines1 := e.lines.set (e.cursor.line - 1).toNat (cl.take (e.cursor.col - 1).toNat)
      let lines2 :=
        lines1.take (e.cursor.line).toNat ++
          cl.drop (e.cursor.col - 1).toNat :: lines1.drop (e.cursor.line).toNat
      { e with
        lines := lines2
        cursor := { e.cursor with line := e.cursor.line + 1, col := 1 } }

/-- Method `(*Editor).moveCursor`: dispatches one navigation key to the
cursor, supplying the surrounding line lengths and line count, then snaps
the cursor to the new current line. `none` models a Go panic: either the
default branch (never reached from `processKeypress`) or a panic inside
`e.prevLine()` on the Left key. -/
def Editor.moveCursor (e : Editor) (key : Nat) : Option Editor :=
  let curLineLen := runeLen e.currentLine
  let c :=
    if key = keyPageUp then some (e.cursor.pageUp e.height)
    else if key = keyPageDown then some (e.cursor.pageDown e.height e.len)
    else if key = keyHome then some e.cursor.home
    else if key = keyEnd then some (e.cursor.endCol curLineLen)
    else if key = keyLeft then e.prevLine.map fun pl => e.cursor.left (runeLen pl)
    else if key = keyDown then some (e.cursor.down e.len)
    else if key = keyUp then some e.cursor.up
    else if key = keyRight then some (e.cursor.right curLineLen e.len)
    else none
  c.map fun c1 =>
    let e1 := { e with cursor := c1 }
    { e1 with cursor := e1.cursor.snap (runeLen e1.currentLine) }

/-- Constant `forceQuitThreshold`. -/
def forceQuitThreshold : Int := 2

/-- Method `(*Editor).canForceQuit`. -/
def Editor.canForceQuit (e : Editor) : Bool :=
  !e.dirty || decide (e.quitCount ≥ forceQuitThreshold)

/-- The warning shown on the first quit of a dirty document. -/
def quitWarning : String := "WARNING: Unsaved changes. Ctrl-Q to force quit."

/-- One iteration of `(*Editor).processKeypress`, starting from the already
transliterated key: `some (cont, e2)` means the loop continues iff `cont`,
`none` models a Go runtime panic inside an edit operation. Key 0 is the
end-of-input sentinel. The save chord is modelled as an always-successful
save of a named document (the real method prompts and writes through the
filesystem): it clears the dirty flag and, like every other non-quit key,
falls through to the reset of the consecutive-quit counter. -/
def Editor.processKey (e : Editor) (key : Nat) : Option (Bool × Editor) :=
  if key = 0 then some (false, e)
  else if key = chordSave then some (true, { e with dirty := false, quitCount := 0 })
  else if key = chordQuit then
    let e1 := { e with quitCount := e.quitCount + 1 }
    if e1.canForceQuit then some (false, e1)
    else some (true, { e1 with statusMsg := quitWarning })
  else
    let after : Option Editor :=
      if key = keyHome ∨ key = keyEnd ∨ key = keyLeft ∨ key = keyDown ∨ key = keyUp ∨
          key = keyRight ∨ key = keyPageUp ∨ key = keyPageDown then
        e.moveCursor key
      else if key = keyBackspace then e.backspace
      else if key = keyDel then e.delete
      else if key = keyLineFeed then some e.newLine
      else if key = keyEsc ∨ key = chordRefresh then some e
      else some (e.insertRune key)
    after.map fun e2 => (true, { e2 with quitCount := 0 })

/-- The current line is `lines[n-1]` when the cursor sits on an existing
line `n`. -/
theorem currentLine_eq (e : Editor) (n : Nat) (c : List Nat)
    (hline : e.cursor.line = (n : Int)) (h1 : 1 ≤ n) (hlen : n ≤ e.lines.length)
    (hc : e.lines.get? (n - 1) = some c) : e.currentLine = some c := by
  simp only [Editor.currentLine, Editor.len, hline]
  rw [if_neg (by omega)]
  have ht : ((n : Int) - 1).toNat = n - 1 := by omega
  rw [ht, hc]

/-- The current line is nil when the cursor sits past the last line. -/
theorem currentLine_none (e : Editor) (h : (e.lines.length : Int) < e.cursor.line) :
    e.currentLine = none := by
  simp only [Editor.currentLine, Editor.len]
  rw [if_pos (by omega)]

/-- The previous line is `lines[n-2]` (no nil, no panic) when the cursor
sits on line `n ≥ 2` and slot `n-2` exists. -/
theorem prevLine_eq (e : Editor) (n : Nat) (p : List Nat)
    (hline : e.cursor.line = (n : Int)) (h2 : 2 ≤ n) (hlen : n ≤ e.lines.length + 1)
    (hp : e.lines.get? (n - 2) = some p) : e.prevLine = some (some p) := by
  have hb : n - 2 < e.lines.length := (List.get?_eq_some.mp hp).1
  simp only [Editor.prevLine, hline]
  rw [if_neg (by omega), if_pos (by omega)]
  have ht : ((n : Int) - 2).toNat = n - 2 := by omega
  rw [ht, hp]

/-- Dispatch of the Delete key inside `processKeypress`. -/
theorem processKey_del (e : Editor) :
    e.processKey keyDel = e.delete.map fun e2 => (true, { e2 with quitCount := 0 }) := by
  simp [Editor.processKey, keyDel, chordSave, chordQuit, keyHome, keyEnd, keyLeft,
    keyDown, keyUp, keyRight, keyPageUp, keyPageDown, keyBackspace]

/-- Dispatch of the Backspace key inside `processKeypress`. -/
theorem processKey_backspace (e : Editor) :
    e.processKey keyBackspace =
      e.backspace.map fun e2 => (true, { e2 with quitCount := 0 }) := by
  simp [Editor.processKey, keyDel, chordSave, chordQuit, keyHome, keyEnd, keyLeft,
    keyDown, keyUp, keyRight, keyPageUp, keyPageDown, keyBackspace]

/-- Dispatch of the Enter key inside `processKeypress`. -/
theorem processKey_lineFeed (e : Editor) :
    e.processKey keyLineFeed = some (true, { e.newLine with quitCount := 0 }) := by
  simp [Editor.processKey, keyDel, chordSave, chordQuit, keyHome, keyEnd, keyLeft,
    keyDown, keyUp, keyRight, keyPageUp, keyPageDown, keyBackspace, keyLineFeed, keyEsc,
    chordRefresh]

/-- List algebra behind a line merge: setting slot `n-2` and then removing
slot `n-1` leaves the prefix before the merged line, the merged line, and
the suffix after the removed line. -/
theorem take_drop_set_merge (l : List (List Nat)) (x : List Nat) (n : Nat)
    (h2 : 2 ≤ n) (hlen : n ≤ l.length) :
    (l.set (n - 2) x).take (n - 1) ++ (l.set (n - 2) x).drop n =
      l.take (n - 2) ++ x :: l.drop n := by
  have hn2 : n - 2 < l.length := by omega
  have hplus : n - 2 + 1 = n - 1 := by omega
  have hset : l.set (n - 2) x = l.take (n - 2) ++ x :: l.drop (n - 1) := by
    rw [List.set_eq_take_cons_drop x hn2, hplus]
  have hlenTake : (l.take (n - 2)).length = n - 2 := by
    rw [List.length_take]; omega
  rw [hset, List.take_append_eq_append_take, List.drop_append_eq_append_drop, hlenTake]
  have e1 : n - 1 - (n - 2) = 1 := by omega
  have e2 : n - (n - 2) = 2 := by omega
  rw [e1, e2, List.take_take]
  have e3 : (n - 1) ⊓ (n - 2) = n - 2 := by omega
  have e4 : (l.take (n - 2)).drop n = [] := List.drop_eq_nil_of_le (by omega)
  rw [e3, e4]
  show l.take (n - 2) ++ [x] ++ ([] ++ (l.drop (n - 1)).drop 1) = _
  rw [List.drop_drop]
  have e5 : n - 1 + 1 = n := by omega
  rw [e5]
  simp

/-- Characterization of `mergeCurrentLineWithPrevious` when the cursor is
on an existing line `n ≥ 2`: the previous line absorbs the current one,
the current line is removed, the cursor moves up and its column becomes
the previous line's old length. -/
theorem merge_spec (e : Editor) (n : Nat) (p c : List Nat)
    (h2 : 2 ≤ n) (hlen : n ≤ e.lines.length) (hline : e.cursor.line = (n : Int))
    (hp : e.lines.get? (n - 2) = some p) (hc : e.lines.get? (n - 1) = some c) :
    e.mergeCurrentLineWithPrevious =
      some
        { e with
          lines := e.lines.take (n - 2) ++ (p ++ c) :: e.lines.drop n
          cursor := { e.cursor with line := e.cursor.line - 1, col := (p.length : Int) } } := by
  have hcur := currentLine_eq e n c hline (by omega) hlen hc
  have hprev := prevLine_eq e n p hline h2 (by omega) hp
  simp only [Editor.mergeCurrentLineWithPrevious, hcur, hprev, hline]
  have t2 : ((n : Int) - 2).toNat = n - 2 := by omega
  have t1 : ((n : Int) - 1).toNat = n - 1 := by omega
  have t0 : (n : Int).toNat = n := by omega
  rw [t2, t1, t0, take_drop_set_merge e.lines (p ++ c) n h2 hlen]

/-- Editor state with the default 80x24 configuration, used for concrete
evaluations. -/
def mkEd (cur : Cursor) (lines : List (List Nat)) (dirty : Bool) : Editor :=
  { width := 80, height := 24, cursor := cur, lines := lines, dirty := dirty,
    quitCount := 0, statusMsg := "" }

/-- CLAIM C10, counterexample. Delete with the buffer `[ab]` and the
cursor on the virtual line 2, column 1, does not continue with the cursor
at line 3: `mergeNextLineWithCurrent` bumps the line to 3 and
`mergeCurrentLineWithPrevious` then panics evaluating `e.prevLine()` —
`e.lines[1]` on a one-line buffer is out of range — so the dispatch
crashes (`none`) instead of the claimed `some` result. -/
theorem C10_delete_on_virtual_line_cex :
    Editor.processKey (mkEd (Cursor.mk 1 2 0 0) [[97, 98]] false) keyDel = none ∧
      Editor.processKey (mkEd (Cursor.mk 1 2 0 0) [[97, 98]] false) keyDel ≠
        some (true,
          { mkEd (Cursor.mk 1 2 0 0) [[97, 98]] false with
            cursor := { Cursor.mk 1 2 0 0 with line := 3 }, quitCount := 0 }) := by decide

/-- CLAIM C10, amended. With the cursor on (or beyond) the virtual
trailing line of a non-empty buffer and in column 1, Delete does not
increment the cursor and continue: `mergeNextLineWithCurrent` bumps the
cursor line past `nLines+1`, and `mergeCurrentLineWithPrevious` then
panics with an index out of range while evaluating `e.prevLine()`
(`e.lines[cursor.line-2]` with `cursor.line-2 ≥ nLines`), crashing the
editor; the buffer is never observed again and no further Delete occurs. -/
theorem C10_delete_on_virtual_line_panics (e : Editor)
    (h1 : 1 ≤ e.lines.length) (h2 : (e.lines.length : Int) + 1 ≤ e.cursor.line)
    (h3 : e.cursor.col = 1) :
    e.processKey keyDel = none := by
  rw [processKey_del]
  have hcn : e.currentLine = none := currentLine_none e (by omega)
  have hdel : e.delete = e.mergeNextLineWithCurrent := by
    rw [Editor.delete, if_pos]
    rw [hcn, h3]
    rfl
  have hnext : e.mergeNextLineWithCurrent =
      Editor.mergeCurrentLineWithPrevious
        { e with cursor := { e.cursor with line := e.cursor.line + 1 } } := by
    rw [Editor.mergeNextLineWithCurrent, if_neg]
    simp only [Editor.len]
    omega
  have hpl :
      Editor.prevLine { e with cursor := { e.cursor with line := e.cursor.line + 1 } } =
        none := by
    simp only [Editor.prevLine]
    rw [if_neg (by simp; omega), if_neg (by simp; omega)]
  have hmerge :
      Editor.mergeCurrentLineWithPrevious
          { e with cursor := { e.cursor with line := e.cursor.line + 1 } } = none := by
    simp only [Editor.mergeCurrentLineWithPrevious, hpl]
  rw [hdel, hnext, hmerge]
  rfl

/-- Witness for C10: Delete with the two-line buffer `[a, b]` and the
cursor on the virtual line 3, column 1, crashes (the model's `none`). -/
theorem C10_delete_on_virtual_line_witness :
    Editor.processKey (mkEd (Cursor.mk 1 3 0 0) [[97], [98]] false) keyDel = none :=
  C10_delete_on_virtual_line_panics (mkEd (Cursor.mk 1 3 0 0) [[97], [98]] false)
    (by decide) (by decide) (by decide)

/-- CLAIM C2. Dispatching Enter on a clean one-line buffer mutates the
buffer (the line is split, giving two lines) yet leaves the dirty flag
false: `newLine`, like the two merge operations, never sets the flag, so
the claim that every buffer-mutating key marks the document dirty fails. -/
theorem C2_enter_mutates_buffer_but_leaves_dirty_unset :
    (Editor.processKey (mkEd (Cursor.mk 1 1 0 0) [[97, 98]] false) keyLineFeed).map
        (fun p => (p.1, p.2.lines, p.2.dirty)) =
      some (true, [[], [97, 98]], false) := by decide

/-- CLAIM C4. Backspace at column 1 of an existing line `n ≥ 2` merges line
`n` into line `n-1`: line `n-1` becomes the concatenation, line `n` is
removed, the cursor moves up, and the new column equals the original
length of line `n-1`. At line 1, column 1 it is a no-op (beyond the
consecutive-quit counter reset every non-quit key performs). -/
theorem C4_backspace_col1_merges_into_previous :
    (∀ (e : Editor) (n : Nat) (p c : List Nat),
        2 ≤ n → n ≤ e.lines.length → e.cursor.line = (n : Int) → e.cursor.col = 1 →
        e.lines.get? (n - 2) = some p → e.lines.get? (n - 1) = some c →
        e.processKey keyBackspace =
          some (true,
            { e with
              lines := e.lines.take (n - 2) ++ (p ++ c) :: e.lines.drop n
              cursor := { e.cursor with line := e.cursor.line - 1, col := (p.length : Int) }
              quitCount := 0 })) ∧
    (∀ e : Editor, e.cursor.line = 1 → e.cursor.col = 1 →
        e.processKey keyBackspace = some (true, { e with quitCount := 0 })) := by
  constructor
  · intro e n p c h2 hlen hline hcol hp hc
    rw [processKey_backspace]
    have hcur : e.currentLine = some c := currentLine_eq e n c hline (by omega) hlen hc
    have hbs : e.backspace = e.mergeCurrentLineWithPrevious := by
      rw [Editor.backspace]
      rw [hcur]
      simp only [hcol, if_pos]
    rw [hbs, merge_spec e n p c h2 hlen hline hp hc]
    rfl
  · intro e hline hcol
    rw [processKey_backspace]
    have hpn : e.prevLine = some none := by
      simp [Editor.prevLine, hline]
    cases hcur : e.currentLine with
    | none => simp [Editor.backspace, hcur]
    | some l =>
      simp [Editor.backspace, hcur, hcol, Editor.mergeCurrentLineWithPrevious, hpn]

/-- Witness for C4: Backspace at column 1 of line 2 of the buffer
`[ab, cd]` yields the single line `abcd` with the cursor at line 1,
column 2 (the old length of line 1); and at line 1, column 1 nothing
changes. -/
theorem C4_backspace_witness :
    (Editor.processKey (mkEd (Cursor.mk 1 2 0 0) [[97, 98], [99, 100]] true) keyBackspace =
      some (true,
        { mkEd (Cursor.mk 1 2 0 0) [[97, 98], [99, 100]] true with
          lines := [[97, 98], [99, 100]].take 0 ++ ([97, 98] ++ [99, 100]) :: [[97, 98], [99, 100]].drop 2
          cursor := { Cursor.mk 1 2 0 0 with line := 2 - 1, col := (2 : Int) }
          quitCount := 0 })) ∧
    Editor.processKey (mkEd (Cursor.mk 1 1 0 0) [[97, 98]] true) keyBackspace =
      some (true, { mkEd (Cursor.mk 1 1 0 0) [[97, 98]] true with quitCount := 0 }) :=
  ⟨C4_backspace_col1_merges_into_previous.1 (mkEd (Cursor.mk 1 2 0 0) [[97, 98], [99, 100]] true)
      2 [97, 98] [99, 100] (by decide) (by decide) (by decide) (by decide) (by decide) (by decide),
    C4_backspace_col1_merges_into_previous.2 (mkEd (Cursor.mk 1 1 0 0) [[97, 98]] true)
      (by decide) (by decide)⟩

/-- CLAIM C3, counterexample. Delete at the end of line 1 of `[ab, cd]`
(column 3) does merge the next line in and keeps the cursor line, but the
cursor column changes from 3 to 2 (the merge sets it to the merged line's
old length), so the cursor does move. -/
theorem C3_delete_at_eol_cex :
    ((Editor.processKey (mkEd (Cursor.mk 3 1 0 0) [[97, 98], [99, 100]] false) keyDel).map
        (fun p => p.2.cursor.col) ≠
      some (mkEd (Cursor.mk 3 1 0 0) [[97, 98], [99, 100]] false).cursor.col) ∧
    (Editor.processKey (mkEd (Cursor.mk 3 1 0 0) [[97, 98], [99, 100]] false) keyDel).map
        (fun p => (p.2.lines, p.2.cursor.line, p.2.cursor.col)) =
      some ([[97, 98, 99, 100]], 1, 2) := by decide

/-- CLAIM C3, amended. Delete at the end of an existing line `n < nLines`
merges line `n+1` into line `n` and keeps the cursor's line, but moves the
cursor's column from `length(n)+1` to `length(n)` (one position left of
where it was); at the end of the last line Delete is a no-op (beyond the
consecutive-quit counter reset every non-quit key performs). -/
theorem C3_delete_at_eol_amended :
    (∀ (e : Editor) (n : Nat) (ln nx : List Nat),
        1 ≤ n → n < e.lines.length → e.cursor.line = (n : Int) →
        e.lines.get? (n - 1) = some ln → e.lines.get? n = some nx →
        e.cursor.col = (ln.length : Int) + 1 →
        e.processKey keyDel =
          some (true,
            { e with
              lines := e.lines.take (n - 1) ++ (ln ++ nx) :: e.lines.drop (n + 1)
              cursor := { e.cursor with col := (ln.length : Int) }
              quitCount := 0 })) ∧
    (∀ e : Editor, e.cursor.line = e.len → e.cursor.col = runeLen e.currentLine + 1 →
        e.processKey keyDel = some (true, { e with quitCount := 0 })) := by
  constructor
  · intro e n ln nx h1 hlt hline hln hnx hcol
    rw [processKey_del]
    have hcur : e.currentLine = some ln := currentLine_eq e n ln hline h1 (by omega) hln
    have hdel : e.delete = e.mergeNextLineWithCurrent := by
      rw [Editor.delete, if_pos]
      rw [hcur, hcol]
      rfl
    have hnext : e.mergeNextLineWithCurrent =
        Editor.mergeCurrentLineWithPrevious
          { e with cursor := { e.cursor with line := e.cursor.line + 1 } } := by
      rw [Editor.mergeNextLineWithCurrent, if_neg]
      simp only [Editor.len]
      omega
    have hm := merge_spec { e with cursor := { e.cursor with line := e.cursor.line + 1 } }
      (n + 1) ln nx (by omega)
      (by show n + 1 ≤ e.lines.length; omega)
      (by show e.cursor.line + 1 = ((n + 1 : Nat) : Int); rw [hline]; push_cast; ring)
      (by show e.lines.get? (n + 1 - 2) = some ln; have hi : n + 1 - 2 = n - 1 := by omega;
          rw [hi]; exact hln)
      (by show e.lines.get? (n + 1 - 1) = some nx; have hi : n + 1 - 1 = n := by omega;
          rw [hi]; exact hnx)
    rw [hdel, hnext, hm]
    have hi2 : n + 1 - 2 = n - 1 := by omega
    simp only [Option.map_some', Option.some.injEq, Prod.mk.injEq, true_and, hi2]
    cases e with
    | mk w h cu ls d q s =>
      cases cu with
      | mk col line co lo =>
        simp only [Editor.mk.injEq, Cursor.mk.injEq, and_true, true_and]
        omega
  · intro e hline hcol
    rw [processKey_del]
    have hdel : e.delete = e.mergeNextLineWithCurrent := by
      rw [Editor.delete, if_pos hcol]
    have hnx : e.mergeNextLineWithCurrent = some e := by
      rw [Editor.mergeNextLineWithCurrent, if_pos hline]
    rw [hdel, hnx]
    rfl

/-- Witness for C3: Delete at the end of line 1 of `[ab, cd]` merges to
`[abcd]` with the cursor column moving to 2; Delete at the end of the last
line of `[ab]` changes nothing. -/
theorem C3_delete_witness :
    (Editor.processKey (mkEd (Cursor.mk 3 1 0 0) [[97, 98], [99, 100]] true) keyDel =
      some (true,
        { mkEd (Cursor.mk 3 1 0 0) [[97, 98], [99, 100]] true with
          lines := [[97, 98], [99, 100]].take 0 ++ ([97, 98] ++ [99, 100]) :: [[97, 98], [99, 100]].drop 2
          cursor := { Cursor.mk 3 1 0 0 with col := (2 : Int) }
          quitCount := 0 })) ∧
    Editor.processKey (mkEd (Cursor.mk 3 2 0 0) [[97, 98], [99, 100]] true) keyDel =
      some (true, { mkEd (Cursor.mk 3 2 0 0) [[97, 98], [99, 100]] true with quitCount := 0 }) :=
  ⟨C3_delete_at_eol_amended.1 (mkEd (Cursor.mk 3 1 0 0) [[97, 98], [99, 100]] true)
      1 [97, 98] [99, 100] (by decide) (by decide) (by decide) (by decide) (by decide) (by decide),
    C3_delete_at_eol_amended.2 (mkEd (Cursor.mk 3 2 0 0) [[97, 98], [99, 100]] true)
      (by decide) (by decide)⟩

/-- CLAIM C8. The quit state machine: a quit chord on a clean document
terminates the loop at once; on a dirty document the first quit sets the
warning status and continues with the consecutive-quit counter at 1; a
second consecutive quit terminates; and every processed non-quit keypress
resets the counter to 0. -/
theorem C8_quit_state_machine :
    (∀ e : Editor, e.dirty = false →
        e.processKey chordQuit = some (false, { e with quitCount := e.quitCount + 1 })) ∧
    (∀ e : Editor, e.dirty = true → e.quitCount = 0 →
        e.processKey chordQuit =
          some (true, { e with quitCount := 1, statusMsg := quitWarning })) ∧
    (∀ e : Editor, e.dirty = true → e.quitCount = 0 →
        Editor.processKey { e with quitCount := 1, statusMsg := quitWarning } chordQuit =
          some (false, { e with quitCount := 2, statusMsg := quitWarning })) ∧
    (∀ (e : Editor) (k : Nat) (b : Bool) (e2 : Editor), k ≠ chordQuit → k ≠ 0 →
        e.processKey k = some (b, e2) → e2.quitCount = 0) := by
  refine ⟨?_, ?_, ?_, ?_⟩
  · intro e hd
    simp [Editor.processKey, chordQuit, chordSave, Editor.canForceQuit, hd]
  · intro e hd hqc
    simp [Editor.processKey, chordQuit, chordSave, Editor.canForceQuit, hd, hqc,
      forceQuitThreshold]
  · intro e hd hqc
    simp [Editor.processKey, chordQuit, chordSave, Editor.canForceQuit, hd, hqc,
      forceQuitThreshold]
  · intro e k b e2 hk h0 hstep
    rw [Editor.processKey] at hstep
    rw [if_neg h0] at hstep
    by_cases hs : k = chordSave
    · rw [if_pos hs] at hstep
      simp only [Option.some.injEq, Prod.mk.injEq] at hstep
      rw [← hstep.2]
    · rw [if_neg hs, if_neg hk] at hstep
      simp only [Option.map_eq_some'] at hstep
      obtain ⟨e3, _, he⟩ := hstep
      simp only [Prod.mk.injEq] at he
      rw [← he.2]

/-- Witness for C8: the four parts of the quit state machine applied to
concrete clean and dirty one-line editors and to the Escape key as the
intervening non-quit keypress. -/
theorem C8_quit_witness :
    (Editor.processKey (mkEd (Cursor.mk 1 1 0 0) [[97]] false) chordQuit =
      some (false, { mkEd (Cursor.mk 1 1 0 0) [[97]] false with quitCount := 0 + 1 })) ∧
    (Editor.processKey (mkEd (Cursor.mk 1 1 0 0) [[97]] true) chordQuit =
      some (true,
        { mkEd (Cursor.mk 1 1 0 0) [[97]] true with quitCount := 1, statusMsg := quitWarning })) ∧
    (Editor.processKey
        { mkEd (Cursor.mk 1 1 0 0) [[97]] true with quitCount := 1, statusMsg := quitWarning }
        chordQuit =
      some (false,
        { mkEd (Cursor.mk 1 1 0 0) [[97]] true with quitCount := 2, statusMsg := quitWarning })) ∧
    ({ mkEd (Cursor.mk 1 1 0 0) [[97]] true with quitCount := 0 } : Editor).quitCount = 0 :=
  ⟨C8_quit_state_machine.1 (mkEd (Cursor.mk 1 1 0 0) [[97]] false) (by decide),
    C8_quit_state_machine.2.1 (mkEd (Cursor.mk 1 1 0 0) [[97]] true) (by decide) (by decide),
    C8_quit_state_machine.2.2.1 (mkEd (Cursor.mk 1 1 0 0) [[97]] true) (by decide) (by decide),
    C8_quit_state_machine.2.2.2 { mkEd (Cursor.mk 1 1 0 0) [[97]] true with quitCount := 1 }
      keyEsc true { mkEd (Cursor.mk 1 1 0 0) [[97]] true with quitCount := 0 }
      (by decide) (by decide) (by decide)⟩

/-- A document reduced to its line lengths, as the cursor sees it. The
length of the current line: 0 once the cursor is past the last line (a nil
`*Line` reports `RuneLen 0`), otherwise the stored length, exactly as
`moveCursor` supplies `e.currentLine().RuneLen()`. -/
def curLen (doc : List Nat) (line : Int) : Int :=
  if line > (doc.length : Int) then 0 else (doc.getD (line - 1).toNat 0 : Int)

/-- The length of the previous line: 0 on the first line, otherwise the
stored length, exactly as `moveCursor` supplies `e.prevLine().RuneLen()`. -/
def prevLen (doc : List Nat) (line : Int) : Int :=
  if line ≤ 1 then 0 else (doc.getD (line - 2).toNat 0 : Int)

/-- The six horizontal/vertical cursor transitions of the claim. -/
inductive NavKey where
  | left
  | right
  | up
  | down
  | home
  | lineEnd
  deriving Repr, DecidableEq

/-- One raw cursor transition, with the surrounding line lengths and the
document line count supplied the way `moveCursor` supplies them, and no
trailing snap. -/
def navRaw (doc : List Nat) (c : Cursor) : NavKey → Cursor
  | NavKey.left => c.left (prevLen doc c.line)
  | NavKey.right => c.right (curLen doc c.line) doc.length
  | NavKey.up => c.up
  | NavKey.down => c.down doc.length
  | NavKey.home => c.home
  | NavKey.lineEnd => c.endCol (curLen doc c.line)

/-- One cursor transition as the editor dispatches it: the raw transition
followed unconditionally by `snap` against the new current line. -/
def navSnap (doc : List Nat) (c : Cursor) (k : NavKey) : Cursor :=
  let c1 := navRaw doc c k
  c1.snap (curLen doc c1.line)

/-- The cursor invariants of the data model: `line ∈ [1, nLines+1]` and
`col ∈ [1, currentLineLength+1]`. -/
def validCursor (doc : List Nat) (c : Cursor) : Prop :=
  1 ≤ c.line ∧ c.line ≤ (doc.length : Int) + 1 ∧ 1 ≤ c.col ∧ c.col ≤ curLen doc c.line + 1

instance validCursorDecidable (doc : List Nat) (c : Cursor) : Decidable (validCursor doc c) := by
  unfold validCursor
  infer_instance

theorem curLen_nonneg (doc : List Nat) (line : Int) : 0 ≤ curLen doc line := by
  simp only [curLen]
  split_ifs <;> omega

theorem prevLen_nonneg (doc : List Nat) (line : Int) : 0 ≤ prevLen doc line := by
  simp only [prevLen]
  split_ifs <;> omega

/-- A raw transition keeps the line inside `[1, nLines+1]` and the column
at least 1 (the column's upper bound can break, which `snap` restores). -/
theorem navRaw_bounds (doc : List Nat) (c : Cursor) (k : NavKey) (h : validCursor doc c) :
    1 ≤ (navRaw doc c k).line ∧ (navRaw doc c k).line ≤ (doc.length : Int) + 1 ∧
      1 ≤ (navRaw doc c k).col := by
  obtain ⟨h1, h2, h3, h4⟩ := h
  have hp := prevLen_nonneg doc c.line
  have hc := curLen_nonneg doc c.line
  cases c with
  | mk col line co lo =>
    cases k <;>
      simp only [navRaw, Cursor.left, Cursor.right, Cursor.up, Cursor.down, Cursor.home,
        Cursor.endCol] at * <;>
      (try split_ifs) <;> (try simp_all) <;> omega

/-- Snapping against the current line restores the full invariant, given
in-range line and positive column. -/
theorem snap_valid (doc : List Nat) (c1 : Cursor) (ha : 1 ≤ c1.line)
    (hb : c1.line ≤ (doc.length : Int) + 1) (hc : 1 ≤ c1.col) :
    validCursor doc (c1.snap (curLen doc c1.line)) := by
  have h0 := curLen_nonneg doc c1.line
  cases c1 with
  | mk col line co lo =>
    simp only [Cursor.snap, Cursor.endCol, validCursor] at *
    split_ifs <;> simp_all <;> omega

/-- One editor-dispatched navigation step preserves the cursor invariant. -/
theorem navSnap_preserves (doc : List Nat) (c : Cursor) (k : NavKey)
    (h : validCursor doc c) : validCursor doc (navSnap doc c k) := by
  obtain ⟨ha, hb, hc⟩ := navRaw_bounds doc c k h
  exact snap_valid doc (navRaw doc c k) ha hb hc

/-- CLAIM C6, counterexample. As stated (bare transitions, no snap) the
invariant is not preserved: on the document with line lengths `[0, 5]`,
the cursor at column 6 of line 2 is valid, but a raw `up` leaves the
column at 6 on the now-current empty line 1, breaking
`col ≤ currentLineLength + 1`. -/
theorem C6_cursor_invariant_cex :
    validCursor [0, 5] (Cursor.mk 6 2 0 0) ∧
      ¬ validCursor [0, 5] (navRaw [0, 5] (Cursor.mk 6 2 0 0) NavKey.up) := by decide

/-- CLAIM C6, amended. With each transition followed by `snap` against the
new current line — which is how the editor dispatches every navigation
key — any sequence of left/right/up/down/home/end transitions preserves
the cursor invariants `line ∈ [1, nLines+1]` and
`col ∈ [1, currentLineLength+1]` after every call. -/
theorem C6_cursor_invariant_amended (doc : List Nat) (c : Cursor) (h : validCursor doc c)
    (ks : List NavKey) : validCursor doc (ks.foldl (navSnap doc) c) := by
  induction ks generalizing c with
  | nil => exact h
  | cons k ks ih => exact ih _ (navSnap_preserves doc c k h)

/-- Witness for C6: a concrete valid start on the document `[2, 3]` stays
valid through a right, down, end, left, up, home sequence. -/
theorem C6_cursor_invariant_witness :
    validCursor [2, 3]
      (List.foldl (navSnap [2, 3]) (Cursor.mk 1 1 0 0)
        [NavKey.right, NavKey.down, NavKey.lineEnd, NavKey.left, NavKey.up, NavKey.home]) :=
  C6_cursor_invariant_amended [2, 3] (Cursor.mk 1 1 0 0) (by decide)
    [NavKey.right, NavKey.down, NavKey.lineEnd, NavKey.left, NavKey.up, NavKey.home]

/-- One step of the rune loop of `newLineFromString`: a tab appends one
space and then pads with spaces until the length is a multiple of
`tabStop` — in total `tabStop - len % tabStop` spaces — and any other rune
is appended unchanged. -/
def lineStep (acc : List Nat) (r : Nat) : List Nat :=
  if r = 9 then acc ++ List.replicate (tabStop - acc.length % tabStop) 32 else acc ++ [r]

/-- The rendered rune sequence `newLineFromString` builds for one raw
line. -/
def renderLine (s : List Nat) : List Nat := s.foldl lineStep []

/-- Helper `dropCR` of Go `bufio.ScanLines`: strips one trailing carriage
return. -/
def dropCR (l : List Nat) : List Nat :=
  if l.getLast? = some 13 then l.dropLast else l

/-- The token loop of Go `bufio.ScanLines` as driven by `Scanner.Scan`: the
accumulator holds the current token's runes in reverse; a newline emits the
token (with `dropCR`) and, when input remains, continues; end of input
emits the remaining data as a final token. -/
def scanAux : List Nat → List Nat → List (List Nat)
  | cur, [] => [dropCR cur.reverse]
  | cur, c :: rest =>
    if c = 10 then
      dropCR cur.reverse :: (if rest.isEmpty then [] else scanAux [] rest)
    else scanAux (c :: cur) rest

/-- All tokens `bufio.Scanner` yields for the given content: none for empty
input (`Scan` returns false immediately at EOF). -/
def scanLines (s : List Nat) : List (List Nat) :=
  if s.isEmpty then [] else scanAux [] s

/-- Method `(*Editor).open` reduced to its buffer effect: one rendered
`Line` per scanned input line. -/
def openLines (content : List Nat) : List (List Nat) :=
  (scanLines content).map renderLine

/-- Method `(*Editor).String`, the document text `save` writes: every
buffer line followed by one newline. -/
def editorDocument (lines : List (List Nat)) : List Nat :=
  lines.foldr (fun l acc => l ++ 10 :: acc) []

/-- Modelled from the spec: one step of "each horizontal tab expanded to
spaces up to the next multiple-of-4 column", tracking the current column,
which a newline resets. This is the specification side of the round-trip
claim, not code from the repository. -/
def expandStep (p : List Nat × Nat) (r : Nat) : List Nat × Nat :=
  if r = 9 then
    (p.1 ++ List.replicate (tabStop - p.2 % tabStop) 32, p.2 + (tabStop - p.2 % tabStop))
  else if r = 10 then (p.1 ++ [10], 0)
  else (p.1 ++ [r], p.2 + 1)

/-- Modelled from the spec: the whole content with every tab expanded to
spaces at stops of 4. -/
def expandContent (s : List Nat) : List Nat := (s.foldl expandStep ([], 0)).1

/-- A content made of newline-terminated lines. -/
def joinNL (ls : List (List Nat)) : List Nat := ls.foldr (fun l acc => l ++ 10 :: acc) []

theorem dropCR_eq (l : List Nat) (h : 13 ∉ l) : dropCR l = l := by
  unfold dropCR
  split_ifs with hl
  · exfalso
    obtain ⟨ys, hy⟩ := List.getLast?_eq_some_iff.mp hl
    exact h (hy ▸ List.mem_append.mpr (Or.inr (List.mem_singleton_self 13)))
  · rfl

/-- Scanning a newline-free token followed by a newline emits the token and
continues with the rest. -/
theorem scanAux_token (l : List Nat) (hl : 10 ∉ l) : ∀ (cur rest : List Nat),
    scanAux cur (l ++ 10 :: rest) =
      dropCR (cur.reverse ++ l) :: (if rest.isEmpty then [] else scanAux [] rest) := by
  induction l with
  | nil => intro cur rest; simp [scanAux]
  | cons c l ih =>
    intro cur rest
    have hc : c ≠ 10 := fun h => hl (h ▸ List.mem_cons_self c l)
    have hl' : 10 ∉ l := fun h => hl (List.mem_cons_of_mem c h)
    show scanAux cur (c :: (l ++ 10 :: rest)) = _
    rw [scanAux, if_neg hc, ih hl' (c :: cur) rest]
    simp

/-- Scanning the concatenation of newline-terminated, CR-free,
newline-free lines recovers exactly those lines. -/
theorem scanLines_joinNL (ls : List (List Nat)) (h : ∀ l ∈ ls, 10 ∉ l ∧ 13 ∉ l) :
    scanLines (joinNL ls) = ls := by
  induction ls with
  | nil => rfl
  | cons l ls ih =>
    obtain ⟨h10, h13⟩ := h l (List.mem_cons_self l ls)
    have hrest : ∀ x ∈ ls, 10 ∉ x ∧ 13 ∉ x := fun x hx => h x (List.mem_cons_of_mem l hx)
    have hj : joinNL (l :: ls) = l ++ 10 :: joinNL ls := rfl
    have hne : (joinNL (l :: ls)).isEmpty = false := by
      rw [hj]
      cases l <;> rfl
    rw [scanLines, hne]
    show scanAux [] (l ++ 10 :: joinNL ls) = l :: ls
    rw [scanAux_token l h10 [] (joinNL ls)]
    simp only [List.reverse_nil, List.nil_append, dropCR_eq l h13]
    cases hls : ls with
    | nil => simp [joinNL]
    | cons l2 ls2 =>
      have hne2 : (joinNL (l2 :: ls2)).isEmpty = false := by
        cases l2 <;> rfl
      rw [hne2]
      simp only [Bool.false_eq_true, if_false, List.cons.injEq, true_and]
      have hthis := ih hrest
      rw [hls] at hthis
      rw [scanLines, hne2] at hthis
      exact hthis

/-- Folding the spec-side expansion over a newline-free line agrees with
the code-side line render, for any already-produced prefix and any
partially built line. -/
theorem expand_line (s : List Nat) (hs : 10 ∉ s) : ∀ (A B : List Nat),
    s.foldl expandStep (A ++ B, B.length) =
      (A ++ s.foldl lineStep B, (s.foldl lineStep B).length) := by
  induction s with
  | nil => intro A B; simp
  | cons r s ih =>
    intro A B
    have hr10 : r ≠ 10 := fun hr => hs (hr ▸ List.mem_cons_self r s)
    have hs' : 10 ∉ s := fun hm => hs (List.mem_cons_of_mem r hm)
    simp only [List.foldl_cons]
    have hstep : expandStep (A ++ B, B.length) r = (A ++ lineStep B r, (lineStep B r).length) := by
      by_cases h9 : r = 9
      · subst h9
        simp [expandStep, lineStep, List.append_assoc]
      · simp [expandStep, lineStep, h9, hr10, List.append_assoc]
    rw [hstep, ih hs' A (lineStep B r)]

/-- Folding the spec-side expansion over newline-terminated, newline-free
lines produces each rendered line followed by a newline. -/
theorem expand_joinNL (ls : List (List Nat)) (h : ∀ l ∈ ls, 10 ∉ l) : ∀ A : List Nat,
    ((joinNL ls).foldl expandStep (A, 0)).1 = A ++ editorDocument (ls.map renderLine) := by
  induction ls with
  | nil => intro A; simp [joinNL, editorDocument]
  | cons l ls ih =>
    intro A
    obtain h10 := h l (List.mem_cons_self l ls)
    have hrest : ∀ x ∈ ls, 10 ∉ x := fun x hx => h x (List.mem_cons_of_mem l hx)
    have hj : joinNL (l :: ls) = l ++ 10 :: joinNL ls := rfl
    rw [hj, List.foldl_append]
    have h1 : l.foldl expandStep (A, 0) = (A ++ renderLine l, (renderLine l).length) := by
      have := expand_line l h10 A []
      simpa [renderLine] using this
    rw [h1, List.foldl_cons]
    have h2 : expandStep (A ++ renderLine l, (renderLine l).length) 10 =
        (A ++ renderLine l ++ [10], 0) := by
      simp [expandStep]
    rw [h2, ih hrest (A ++ renderLine l ++ [10])]
    simp [editorDocument]

/-- CLAIM C7, counterexample. The round trip is not exact for every file:
the one-byte file `a` has no tabs, so its expansion is itself, yet loading
and saving it produces `a` followed by a newline the original lacked. -/
theorem C7_roundtrip_cex :
    editorDocument (openLines [97]) = [97, 10] ∧
      editorDocument (openLines [97]) ≠ expandContent [97] := by decide

/-- CLAIM C7, amended. For every file whose content is a sequence of
newline-terminated lines none of which contains a newline or a carriage
return (Go `bufio.ScanLines` silently strips a CR before each newline, and
a final line without a trailing newline gains one), loading the file with
no edits and saving writes exactly the original content with each tab
expanded to spaces up to the next multiple-of-4 column. -/
theorem C7_roundtrip_amended (ls : List (List Nat)) (h : ∀ l ∈ ls, 10 ∉ l ∧ 13 ∉ l) :
    editorDocument (openLines (joinNL ls)) = expandContent (joinNL ls) := by
  rw [expandContent, expand_joinNL ls (fun l hl => (h l hl).1) [], List.nil_append]
  rw [openLines, scanLines_joinNL ls h]

/-- Witness for C7: the two-line content `a<tab>b` + newline + `cd` +
newline round-trips to itself with the tab expanded to three spaces. -/
theorem C7_roundtrip_witness :
    editorDocument (openLines (joinNL [[97, 9, 98], [99, 100]])) =
      expandContent (joinNL [[97, 9, 98], [99, 100]]) :=
  C7_roundtrip_amended [[97, 9, 98], [99, 100]] (by decide)

end Gila
